import Mathlib

/-!
Verification development for the DRIA repository.

Part 1 embeds the condition/statistics evaluation engine. The backend
implementation itself is not part of the source tree (only its test
documentation `backend/tests1/README.md` is), so the engine is modelled
from the specification, with the missing-channel policy taken from the
repository's own backend test notes. Rational numbers stand in for the
floating-point samples.

Part 2 embeds the configuration-session state machine (modelled from the
specification, the dialogue-controller backend being absent as well).

Part 3 embeds, directly from the frontend sources (`ChatPage` and the
API service), the cancel-config handler, the per-item selection loop and
the status-evaluation item-selection dialog logic.
-/

namespace DRIA

/-- Modelled from the spec: statistic kinds of the StatisticEvaluator (spec §3/§4.1);
`rms` and `stdDev` are carried as their squares (mean square / variance) since the
square root is irrational over ℚ — the window they are computed over is unchanged. -/
inductive StatKind where
  | average
  | maximum
  | minimum
  | rms
  | instantaneous
  | difference
  | stdDev
  | range
  deriving DecidableEq

/-- Modelled from the spec: comparison operators of a Condition (spec §3). -/
inductive CompOp where
  | gt
  | lt
  | ge
  | le
  | eq
  | ne
  | suddenIncrease
  | suddenDecrease
  deriving DecidableEq

/-- Modelled from the spec: AND/OR combination logic for a condition list. -/
inductive CondLogic where
  | and
  | or
  deriving DecidableEq

/-- Modelled from the spec and the backend test README's config format:
a Condition is a channel reference, a statistic kind, a window duration,
a comparison operator (`logic` in the README's JSON) and a threshold. -/
structure Condition where
  channel : String
  statistic : StatKind
  duration : ℚ
  logic : CompOp
  threshold : ℚ
  deriving DecidableEq

/-- Modelled from the spec: the three evaluation-item types (spec §3). -/
inductive ItemType where
  | continuousCheck
  | eventCheck
  | functionalResult
  deriving DecidableEq

/-- Modelled from the spec: an EvaluationItem groups Conditions under AND/OR
logic; `failValue` is the per-item polarity of spec §4.3 — the combined boolean
value that constitutes failure (false for "must stay true" items, true for
"must never happen" items). -/
structure EvaluationItem where
  item : String
  assessmentName : String
  itemType : ItemType
  conditionLogic : CondLogic
  conditions : List Condition
  failValue : Bool
  deriving DecidableEq

/-- Modelled from the spec: a ChannelStore maps channel names to ordered
(timestamp, value) samples. -/
structure ChannelStore where
  channels : List (String × List (ℚ × ℚ))
  deriving DecidableEq

def lookupChannel (store : ChannelStore) (name : String) : Option (List (ℚ × ℚ)) :=
  (store.channels.find? (fun p => p.1 == name)).map (·.2)

/-- Nearest sample at or before `t` (next-older-sample semantics, spec §4.1). -/
def valueAtOrBefore (samples : List (ℚ × ℚ)) (t : ℚ) : Option ℚ :=
  ((samples.filter (fun p => decide (p.1 ≤ t))).getLast?).map (·.2)

/-- Lookup for the older operand of `difference`: clamp to the first sample when
`t` precedes the data (explicit design choice of spec §4.1). -/
def clampedValueAt (samples : List (ℚ × ℚ)) (t : ℚ) : Option ℚ :=
  match valueAtOrBefore samples t with
  | some v => some v
  | none => samples.head?.map (·.2)

/-- The samples whose timestamp lies in the closed window `[atTime - d, atTime]`
(spec §4.1: inclusive on both ends). -/
def windowSamples (samples : List (ℚ × ℚ)) (atTime d : ℚ) : List (ℚ × ℚ) :=
  samples.filter (fun p => decide (atTime - d ≤ p.1) && decide (p.1 ≤ atTime))

def listSum (l : List ℚ) : ℚ := l.foldl (· + ·) 0

def listMax : List ℚ → Option ℚ
  | [] => none
  | x :: xs => some (xs.foldl max x)

def listMin : List ℚ → Option ℚ
  | [] => none
  | x :: xs => some (xs.foldl min x)

def meanOf (l : List ℚ) : ℚ := listSum l / l.length

/-- Modelled from the spec §4.1: the statistic of one channel's samples at an
instant. Window-based kinds aggregate `windowSamples`; `instantaneous` uses the
nearest at-or-before sample; `difference` is value(atTime) − value(atTime − d)
with clamp-to-first-sample for the older lookup. An empty window / missing
sample yields `none` (the InsufficientData case, skipped during scans per §4.3). -/
def statOf (kind : StatKind) (samples : List (ℚ × ℚ)) (atTime d : ℚ) : Option ℚ :=
  match kind with
  | .instantaneous => valueAtOrBefore samples atTime
  | .difference =>
    match valueAtOrBefore samples atTime, clampedValueAt samples (atTime - d) with
    | some v1, some v0 => some (v1 - v0)
    | _, _ => none
  | .average =>
    let w := (windowSamples samples atTime d).map (·.2)
    if w.isEmpty then none else some (meanOf w)
  | .maximum => listMax ((windowSamples samples atTime d).map (·.2))
  | .minimum => listMin ((windowSamples samples atTime d).map (·.2))
  | .range =>
    let w := (windowSamples samples atTime d).map (·.2)
    match listMax w, listMin w with
    | some hi, some lo => some (hi - lo)
    | _, _ => none
  | .rms =>
    let w := (windowSamples samples atTime d).map (·.2)
    if w.isEmpty then none else some (meanOf (w.map (fun v => v * v)))
  | .stdDev =>
    let w := (windowSamples samples atTime d).map (·.2)
    if w.isEmpty then none else
      some (meanOf (w.map (fun v => (v - meanOf w) * (v - meanOf w))))

/-- The window-based statistic kinds of spec §4.1. -/
def StatKind.isWindowBased : StatKind → Bool
  | .average | .maximum | .minimum | .rms | .stdDev | .range => true
  | .instantaneous | .difference => false

/-- Statistic of a channel resolved through the store. The missing-channel
branch follows the repository's backend test notes
(`backend/tests1/README.md`, note 4): a channel absent from the data file is
given the default value 0.0 (with a warning), so every statistic over it is 0. -/
def statEval (store : ChannelStore) (name : String) (kind : StatKind)
    (atTime d : ℚ) : Option ℚ :=
  match lookupChannel store name with
  | some samples => statOf kind samples atTime d
  | none => some 0

/-- The referenced channels that do not resolve in the store — the set the
backend warns about (README note 4). -/
def missingChannels (store : ChannelStore) (conds : List Condition) : List String :=
  ((conds.map (·.channel)).filter (fun n => (lookupChannel store n).isNone)).dedup

def applyOp (op : CompOp) (v threshold : ℚ) : Bool :=
  match op with
  | .gt => decide (v > threshold)
  | .lt => decide (v < threshold)
  | .ge => decide (v ≥ threshold)
  | .le => decide (v ≤ threshold)
  | .eq => v == threshold
  | .ne => v != threshold
  | .suddenIncrease => decide (v > threshold)
  | .suddenDecrease => decide (v < -threshold)

/-- Modelled from the spec §4.2: evaluate one Condition at an instant.
Sudden-increase/decrease compare the `difference` statistic over the
condition's duration against the (negated) threshold. -/
def condEval (store : ChannelStore) (c : Condition) (atTime : ℚ) : Option Bool :=
  match c.logic with
  | .suddenIncrease =>
    (statEval store c.channel .difference atTime c.duration).map
      (fun v => applyOp .suddenIncrease v c.threshold)
  | .suddenDecrease =>
    (statEval store c.channel .difference atTime c.duration).map
      (fun v => applyOp .suddenDecrease v c.threshold)
  | op =>
    (statEval store c.channel c.statistic atTime c.duration).map
      (fun v => applyOp op v c.threshold)

/-- All conditions are evaluated (materialized) before combining — no
short-circuit (spec §4.2). -/
def evalAll (store : ChannelStore) (conds : List Condition) (atTime : ℚ) :
    List (Option Bool) :=
  conds.map (fun c => condEval store c atTime)

/-- Modelled from the spec §4.2: AND/OR combination of the evaluated condition
list; a timestamp where some condition lacks data (`none`) is skipped as a whole. -/
def combine (store : ChannelStore) (conds : List Condition) (logic : CondLogic)
    (atTime : ℚ) : Option Bool :=
  let rs := evalAll store conds atTime
  if rs.any (fun r => r.isNone) then none
  else
    match logic with
    | .and => some (rs.all (fun r => r == some true))
    | .or => some (rs.any (fun r => r == some true))

def channelTimes (store : ChannelStore) (name : String) : List ℚ :=
  match lookupChannel store name with
  | some samples => samples.map (·.1)
  | none => []

def allTimes (store : ChannelStore) (conds : List Condition) : List ℚ :=
  (conds.map (fun c => channelTimes store c.channel)).flatten

/-- Modelled from the spec §4.3: the candidate timestamps of an item are the
union of the sample timestamps of all referenced channels, scanned in ascending
order. -/
def candidateTimes (store : ChannelStore) (item : EvaluationItem) : List ℚ :=
  List.insertionSort (· ≤ ·) (allTimes store item.conditions).dedup

def combineAt (store : ChannelStore) (item : EvaluationItem) (t : ℚ) : Option Bool :=
  combine store item.conditions item.conditionLogic t

/-- The combined condition set fails at `t` when it evaluates to the item's
failure polarity; a skipped timestamp (`none`) never fails (spec §4.3). -/
def failsAt (store : ChannelStore) (item : EvaluationItem) (t : ℚ) : Bool :=
  combineAt store item t == some item.failValue

/-- Result of a one-vote-veto scan; `evaluated` records every timestamp at
which the condition set was actually evaluated (the instrumentation the spec's
testable property asks for). -/
structure ScanResult where
  verdict : Bool
  failureTime : Option ℚ
  evaluated : List ℚ
  deriving DecidableEq

/-- Modelled from the spec §4.3: the scan starts from verdict `true` and no
failure time, walks the timestamps in order, and stops at the first failure. -/
def scanVeto (fails : ℚ → Bool) : List ℚ → ScanResult
  | [] => ⟨true, none, []⟩
  | t :: ts =>
    if fails t then ⟨false, some t, [t]⟩
    else
      let r := scanVeto fails ts
      ⟨r.verdict, r.failureTime, t :: r.evaluated⟩

/-- One-vote-veto evaluation of a `continuous_check` item. -/
def runContinuous (store : ChannelStore) (item : EvaluationItem) : ScanResult :=
  scanVeto (failsAt store item) (candidateTimes store item)

/-- Modelled from the spec §4.3: first-trigger search for a `functional_result`
item — the earliest candidate timestamp at which the combined condition set
becomes true (the before-data state counting as false). -/
def firstTrigger (store : ChannelStore) (item : EvaluationItem) : Option ℚ :=
  (candidateTimes store item).find? (fun t => combineAt store item t == some true)

/-- Modelled from the spec §4.3: the result of a `functional_result` item is a
timestamp or the distinct reportable state `notFound` — not an error and not a
boolean verdict. -/
inductive FunctionalResult where
  | found (t : ℚ)
  | notFound
  deriving DecidableEq

def runFunctional (store : ChannelStore) (item : EvaluationItem) : FunctionalResult :=
  match firstTrigger store item with
  | some t => .found t
  | none => .notFound

/-! ### Part 2: configuration-session state machine -/

/-- Modelled from the spec §4.4: the wizard states observed in the dialogue
controller (the controller's backend source is absent from the tree). -/
inductive SessionState where
  | initial
  | displayChannels
  | triggerCombo
  | selectRpmStandard
  | parameterConfig
  | statusEvalSelectItems
  | statusEvalConfigItem
  | confirmation
  | completed
  deriving DecidableEq

/-- Modelled from the spec §3: the accumulating (possibly incomplete)
ReportConfig a session owns — channel selections, chosen evaluation items and
a representative tuned parameter. -/
structure DraftConfig where
  displayChannels : List String
  evalItems : List String
  threshold : Option ℚ
  deriving DecidableEq

/-- Modelled from the spec §3/§4.4: a ConfigSession holds the current state,
the draft config, and the history stack of prior (state, config) pairs used by
"previous step". -/
structure ConfigSession where
  state : SessionState
  config : DraftConfig
  history : List (SessionState × DraftConfig)
  deriving DecidableEq

inductive DialogueError where
  | invalidTransition
  | sessionNotFound
  deriving DecidableEq

/-- Modelled from the spec §4.4: the structured actions of the wizard. -/
inductive DialogueAction where
  | selectChannel (name : String)
  | selectEvalItem (id : String)
  | setThreshold (v : ℚ)
  | finishChannels
  | chooseTrigger
  | confirm
  | prevStep
  deriving DecidableEq

/-- The structured update actions — those that write a value into the draft
config (as opposed to the navigation actions). -/
def DialogueAction.isUpdate : DialogueAction → Bool
  | .selectChannel _ | .selectEvalItem _ | .setThreshold _ => true
  | _ => false

/-- The forward transitions — those that advance the wizard to the next state. -/
def DialogueAction.isForward : DialogueAction → Bool
  | .finishChannels | .chooseTrigger | .confirm => true
  | _ => false

/-- Modelled from the spec §4.4: apply one structured action to a session.
Each state declares which actions are legal; illegal actions fail with
`invalidTransition` and leave the session untouched (the `Except` error carries
no session, so a failed action changes nothing). Re-submitting an
already-applied update action is a no-op; every accepted forward transition
pushes the prior (state, config) pair onto the history stack; "previous step"
pops and restores it. -/
def applyAction (s : ConfigSession) (a : DialogueAction) :
    Except DialogueError ConfigSession :=
  match a with
  | .selectChannel c =>
    if s.state = .displayChannels then
      if c ∈ s.config.displayChannels then .ok s
      else .ok { s with
        config := { s.config with displayChannels := s.config.displayChannels ++ [c] } }
    else .error .invalidTransition
  | .selectEvalItem id =>
    if s.state = .statusEvalSelectItems then
      if id ∈ s.config.evalItems then .ok s
      else .ok { s with
        config := { s.config with evalItems := s.config.evalItems ++ [id] } }
    else .error .invalidTransition
  | .setThreshold v =>
    if s.state = .parameterConfig then
      if s.config.threshold = some v then .ok s
      else .ok { s with config := { s.config with threshold := some v } }
    else .error .invalidTransition
  | .finishChannels =>
    if s.state = .displayChannels then
      .ok ⟨.triggerCombo, s.config, (s.state, s.config) :: s.history⟩
    else .error .invalidTransition
  | .chooseTrigger =>
    if s.state = .triggerCombo then
      .ok ⟨.parameterConfig, s.config, (s.state, s.config) :: s.history⟩
    else .error .invalidTransition
  | .confirm =>
    if s.state = .parameterConfig then
      .ok ⟨.confirmation, s.config, (s.state, s.config) :: s.history⟩
    else .error .invalidTransition
  | .prevStep =>
    match s.history with
    | [] => .error .invalidTransition
    | (st, cfg) :: rest => .ok ⟨st, cfg, rest⟩

/-- The controller's session store: session id → ConfigSession. -/
structure SessionStore where
  sessions : List (String × ConfigSession)
  deriving DecidableEq

/-- Status lookup; `none` models the backend's 404 "no config session". -/
def checkConfigStatus (store : SessionStore) (id : String) : Option ConfigSession :=
  (store.sessions.find? (fun p => p.1 == id)).map (·.2)

/-- Modelled from the spec §4.4: cancel clears the session entirely. -/
def cancelConfig (store : SessionStore) (id : String) : SessionStore :=
  ⟨store.sessions.filter (fun p => p.1 != id)⟩

/-- Apply an action to a stored session; a cancelled (hence absent) session
cannot be resumed. -/
def applySessionAction (store : SessionStore) (id : String) (a : DialogueAction) :
    Except DialogueError SessionStore :=
  match checkConfigStatus store id with
  | none => .error .sessionNotFound
  | some s =>
    (applyAction s a).map (fun s' =>
      ⟨store.sessions.map (fun p => if p.1 == id then (p.1, s') else p)⟩)

/-! ### Part 3: frontend embeddings (`ChatPage`, API selection loops) -/

/-- The chat page's `configMode` React state (`ChatPage`): activity flag,
backend session id, wizard state, report type, and the current params blob
(modelled as an association list). -/
structure ConfigModeState where
  isActive : Bool
  sessionId : String
  currentState : String
  reportType : String
  currentParams : List (String × String)
  deriving DecidableEq

/-- The reset value both branches of `handleCancelConfig` write into
`configMode`. -/
def resetConfigMode : ConfigModeState :=
  ⟨false, "", "", "", []⟩

/-- Embedded from `ChatPage.handleCancelConfig`: the cancel-config request is
attempted only when a session id is present; a non-ok response throws into the
`catch` branch. Both the success path and the catch branch write the same
inactive `configMode` and append the same cancel message. The second component
records the chat messages appended. -/
def handleCancelConfig (mode : ConfigModeState)
    (requestResult : Except String Unit) : ConfigModeState × List String :=
  match (if mode.sessionId ≠ "" then requestResult else .ok ()) with
  | .ok () => (resetConfigMode, ["配置已取消，回到对话模式。"])
  | .error _ => (resetConfigMode, ["配置已取消，回到对话模式。"])

/-- Embedded from `ChatPage.applySteadyStateChannelSelection` (and the
identical per-item loop in `applyStatusEvalItemSelection`): each selected item
is submitted as its own `updateReportConfig` request; a failing request adds
the item to the failed list and the loop continues with the state left by the
earlier successful requests. Returns (final backend state, succeeded items,
failed items). -/
def applyChannelLoop {σ : Type} (apply : σ → String → Option σ) :
    σ → List String → σ × List String × List String
  | s, [] => (s, [], [])
  | s, c :: cs =>
    match apply s c with
    | some s' =>
      let r := applyChannelLoop apply s' cs
      (r.1, c :: r.2.1, r.2.2)
    | none =>
      let r := applyChannelLoop apply s cs
      (r.1, r.2.1, c :: r.2.2)

/-- An available evaluation item of the status-eval selection dialog. -/
structure EvalChoice where
  id : String
  name : String
  deriving DecidableEq

/-- Embedded from `ChatPage`: the functional-calculation item ids that are
never selectable inside a standalone status evaluation. -/
def functionalIds : List String :=
  ["ngRundown", "npRundown", "startupTime", "ignitionTime"]

/-- Embedded from `ChatPage`: `isFullReport = configMode.reportType === '完整报表'`. -/
def isFullReport (reportType : String) : Bool :=
  reportType == "完整报表"

/-- Embedded from the status-eval Modal checkbox rendering:
`disabled = !isFullReport && functionalIds.has(item.id)`. -/
def itemDisabled (reportType : String) (it : EvalChoice) : Bool :=
  !isFullReport reportType && functionalIds.contains it.id

/-- Embedded from `handleReportTypeClick` / `handleSendMessage`: the default
selection keeps an item iff `isFullReport || !functionalIds.has(it.id)`. -/
def defaultSelectedEvalItems (reportType : String) (items : List EvalChoice) :
    List String :=
  (items.filter (fun it => isFullReport reportType || !functionalIds.contains it.id)).map
    (·.id)

/-- Embedded from the status-eval Modal select-all button: select-all selects
only the selectable items, with the same filter as the default selection. -/
def selectAllEvalItems (reportType : String) (items : List EvalChoice) :
    List String :=
  (items.filter (fun it => isFullReport reportType || !functionalIds.contains it.id)).map
    (·.id)

/-! ### Part 4: concrete instances used to evaluate the development -/

/-- A store with one channel "T" whose instantaneous value first exceeds 3 at t = 2. -/
def c1Store : ChannelStore := ⟨[("T", [(0, 1), (1, 2), (2, 5), (3, 1)])]⟩

/-- A continuous check "T stays ≤ 3" (failure polarity: combined value false). -/
def c1Item : EvaluationItem :=
  ⟨"item1", "温度保持", .continuousCheck, .and, [⟨"T", .instantaneous, 0, .le, 3⟩], false⟩

/-- A store containing only channel "Ng" — channel "Temp" is absent. -/
def c2Store : ChannelStore := ⟨[("Ng", [(0, 10), (1, 20)])]⟩

/-- A Condition referencing the missing channel "Temp". -/
def c2Condition : Condition := ⟨"Temp", .instantaneous, 0, .gt, -1⟩

/-- A continuous check mixing a resolvable and an unresolvable channel reference. -/
def c2Item : EvaluationItem :=
  ⟨"item2", "缺失通道", .continuousCheck, .and,
    [⟨"Ng", .instantaneous, 0, .ge, 0⟩, c2Condition], false⟩

/-- A backend stand-in for the selection loop: selecting "B" is rejected, any
other channel is appended to the backend's selection state. -/
def steadyApplyDemo (s : List String) (c : String) : Option (List String) :=
  if c = "B" then none else some (s ++ [c])

def c4Store : ChannelStore := ⟨[("Ng", [(0, 4), (1, 6)])]⟩

def c4CondA : Condition := ⟨"Ng", .instantaneous, 0, .gt, 5⟩

def c4CondB : Condition := ⟨"Ng", .instantaneous, 0, .lt, 3⟩

def c4Conds : List Condition := [c4CondA, c4CondB]

/-- The spec's example series: channel "Ng" sampled at t = 0..5 s. -/
def ngSamples : List (ℚ × ℚ) :=
  [(0, 14000), (1, 15200), (2, 15300), (3, 15100), (4, 14800), (5, 14950)]

def ngStore : ChannelStore := ⟨[("Ng", ngSamples)]⟩

/-- The spec's example Condition: average of Ng over 2 s is above 15000. -/
def ngCondition : Condition := ⟨"Ng", .average, 2, .gt, 15000⟩

def demoCfg : DraftConfig := ⟨["Ng"], [], none⟩

def demoSessions : SessionStore := ⟨[("s1", ⟨.initial, demoCfg, []⟩)]⟩

def c8Store : ChannelStore := ⟨[("Ng", [(0, 0), (1, 0), (2, 7), (3, 9)])]⟩

/-- A functional-result item triggering when Ng first exceeds 5 (at t = 2). -/
def c8Item : EvaluationItem :=
  ⟨"startup", "启动时间", .functionalResult, .and,
    [⟨"Ng", .instantaneous, 0, .gt, 5⟩], false⟩

/-- A functional-result item whose trigger never becomes true. -/
def c8ItemNone : EvaluationItem :=
  ⟨"startup", "启动时间", .functionalResult, .and,
    [⟨"Ng", .instantaneous, 0, .gt, 100⟩], false⟩

/-! ### Helper lemmas -/

theorem scanVeto_all_pass (f : ℚ → Bool) :
    ∀ (l : List ℚ), (∀ t ∈ l, f t = false) → scanVeto f l = ⟨true, none, l⟩
  | [], _ => rfl
  | t :: ts, h => by
    have ht : f t = false := h t (List.mem_cons_self t ts)
    have ih := scanVeto_all_pass f ts (fun u hu => h u (List.mem_cons_of_mem t hu))
    simp [scanVeto, ht, ih]

theorem scanVeto_first_fail (f : ℚ → Bool) :
    ∀ (l : List ℚ), l.Sorted (· < ·) → ∀ t₀ ∈ l, f t₀ = true →
      (∀ u ∈ l, u < t₀ → f u = false) →
      (scanVeto f l).verdict = false ∧ (scanVeto f l).failureTime = some t₀
        ∧ ∀ u ∈ (scanVeto f l).evaluated, u ≤ t₀ := by
  intro l
  induction l with
  | nil => intro _ t₀ ht₀; exact absurd ht₀ (List.not_mem_nil t₀)
  | cons t ts ih =>
    intro hs t₀ ht₀ hf hmin
    have hlt : ∀ b ∈ ts, t < b := (List.sorted_cons.mp hs).1
    by_cases hft : f t = true
    · have heq : t₀ = t := by
        rcases List.mem_cons.mp ht₀ with h | h
        · exact h
        · exact absurd hft (by simp [hmin t (List.mem_cons_self t ts) (hlt t₀ h)])
      subst heq
      simp [scanVeto, hft]
    · have hne : t₀ ≠ t := fun h => hft (h ▸ hf)
      have ht₀' : t₀ ∈ ts := (List.mem_cons.mp ht₀).resolve_left hne
      have hmin' : ∀ u ∈ ts, u < t₀ → f u = false :=
        fun u hu => hmin u (List.mem_cons_of_mem t hu)
      have hr := ih (List.sorted_cons.mp hs).2 t₀ ht₀' hf hmin'
      have hftf : f t = false := Bool.eq_false_iff.mpr hft
      refine ⟨?_, ?_, ?_⟩
      · simpa [scanVeto, hftf] using hr.1
      · simpa [scanVeto, hftf] using hr.2.1
      · intro u hu
        simp [scanVeto, hftf] at hu
        rcases hu with h | h
        · exact le_of_lt (h ▸ hlt t₀ ht₀')
        · exact hr.2.2 u h

theorem candidateTimes_sorted (store : ChannelStore) (item : EvaluationItem) :
    (candidateTimes store item).Sorted (· < ·) := by
  have h1 : (candidateTimes store item).Sorted (· ≤ ·) :=
    List.sorted_insertionSort _ _
  have h2 : (candidateTimes store item).Nodup :=
    (List.perm_insertionSort _ _).nodup_iff.mpr (List.nodup_dedup _)
  exact h1.lt_of_le h2

theorem find?_sorted_eq_some_iff {p : ℚ → Bool} :
    ∀ {l : List ℚ}, l.Sorted (· < ·) → ∀ {a : ℚ},
      (l.find? p = some a ↔ a ∈ l ∧ p a = true ∧ ∀ u ∈ l, u < a → p u = false) := by
  intro l
  induction l with
  | nil => intro _ a; simp
  | cons t ts ih =>
    intro hs a
    have hlt : ∀ b ∈ ts, t < b := (List.sorted_cons.mp hs).1
    by_cases hpt : p t = true
    · rw [List.find?_cons_of_pos ts hpt]
      constructor
      · intro h
        have : t = a := by injection h
        subst this
        refine ⟨List.mem_cons_self t ts, hpt, ?_⟩
        intro u hu hul
        rcases List.mem_cons.mp hu with h | h
        · exact absurd hul (h ▸ lt_irrefl t)
        · exact absurd (lt_trans (hlt u h) hul) (lt_irrefl t)
      · rintro ⟨hmem, hpa, hmin⟩
        rcases List.mem_cons.mp hmem with h | h
        · exact congrArg some h.symm
        · exact absurd hpt (by simp [hmin t (List.mem_cons_self t ts) (hlt a h)])
    · have hptf : ¬ p t := fun h => hpt h
      rw [List.find?_cons_of_neg ts hptf]
      rw [ih (List.sorted_cons.mp hs).2]
      constructor
      · rintro ⟨hmem, hpa, hmin⟩
        refine ⟨List.mem_cons_of_mem t hmem, hpa, ?_⟩
        intro u hu hul
        rcases List.mem_cons.mp hu with h | h
        · exact h ▸ Bool.eq_false_iff.mpr hptf
        · exact hmin u h hul
      · rintro ⟨hmem, hpa, hmin⟩
        have hne : a ≠ t := fun h => hpt (h ▸ hpa)
        refine ⟨(List.mem_cons.mp hmem).resolve_left hne, hpa, ?_⟩
        intro u hu hul
        exact hmin u (List.mem_cons_of_mem t hu) hul

theorem windowSamples_idem (samples : List (ℚ × ℚ)) (atTime d : ℚ) :
    windowSamples (windowSamples samples atTime d) atTime d
      = windowSamples samples atTime d := by
  simp [windowSamples, List.filter_filter]

/-! ### Claim theorems -/

/-- C9: the chat page's cancel-config handler resets the frontend config mode
to inactive (empty session id, state, report type and params) regardless of
whether the backend cancel request succeeds or throws — both the success path
and the catch branch perform the same reset. -/
theorem handleCancelConfig_always_resets (mode : ConfigModeState)
    (requestResult : Except String Unit) :
    (handleCancelConfig mode requestResult).1 = resetConfigMode := by
  unfold handleCancelConfig
  split <;> rfl

/-- C10: in the status-evaluation item-selection dialog, whenever the active
report type is not "完整报表", every functional-calculation item (ids
`ngRundown`, `npRundown`, `startupTime`, `ignitionTime`) is rendered disabled,
excluded from the default selection, and excluded from select-all. -/
theorem statusEval_functional_items_locked (reportType : String)
    (h : reportType ≠ "完整报表") (it : EvalChoice) (hit : it.id ∈ functionalIds)
    (items : List EvalChoice) :
    itemDisabled reportType it = true
      ∧ it.id ∉ defaultSelectedEvalItems reportType items
      ∧ it.id ∉ selectAllEvalItems reportType items := by
  have hfr : isFullReport reportType = false := by
    simp [isFullReport, h]
  have hc : functionalIds.contains it.id = true := by
    simpa using hit
  refine ⟨by simp [itemDisabled, hfr, hit], ?_, ?_⟩
  · intro hmem
    simp only [defaultSelectedEvalItems, List.mem_map, List.mem_filter, hfr,
      Bool.false_or] at hmem
    obtain ⟨b, ⟨_, hb⟩, hid⟩ := hmem
    rw [hid, hc] at hb
    simp at hb
  · intro hmem
    simp only [selectAllEvalItems, List.mem_map, List.mem_filter, hfr,
      Bool.false_or] at hmem
    obtain ⟨b, ⟨_, hb⟩, hid⟩ := hmem
    rw [hid, hc] at hb
    simp at hb

/-- Witness for C10 at report type "状态评估" and item id `ngRundown`. -/
theorem statusEval_functional_items_locked_witness :
    itemDisabled "状态评估" ⟨"ngRundown", "Ng转速下降时间"⟩ = true
      ∧ "ngRundown" ∉ defaultSelectedEvalItems "状态评估"
          [⟨"ngRundown", "Ng转速下降时间"⟩, ⟨"overTemp", "超温检查"⟩]
      ∧ "ngRundown" ∉ selectAllEvalItems "状态评估"
          [⟨"ngRundown", "Ng转速下降时间"⟩, ⟨"overTemp", "超温检查"⟩] :=
  statusEval_functional_items_locked "状态评估" (by decide)
    ⟨"ngRundown", "Ng转速下降时间"⟩ (by decide)
    [⟨"ngRundown", "Ng转速下降时间"⟩, ⟨"overTemp", "超温检查"⟩]

/-- C3 counterexample: a selection resolving to the three deltas A, B, C where
B is invalid does not leave the state unchanged — A and C are applied anyway,
so application is not atomic. -/
theorem applyChannelLoop_not_atomic :
    (applyChannelLoop steadyApplyDemo [] ["A", "B", "C"]).2.2 = ["B"]
      ∧ (applyChannelLoop steadyApplyDemo [] ["A", "B", "C"]).1 = ["A", "C"]
      ∧ (applyChannelLoop steadyApplyDemo [] ["A", "B", "C"]).1 ≠ [] := by
  refine ⟨rfl, rfl, by decide⟩

/-- C3 amended: the selection loop applies deltas per item and tolerates
partial failures — the final state is the fold of the successful applications
only (a failed item keeps the current state and is recorded in the failed
list), and every item is classified as succeeded or failed; nothing is rolled
back and the loop never aborts. -/
theorem applyChannelLoop_partial_failure (σ : Type) (apply : σ → String → Option σ)
    (s : σ) (cs : List String) :
    (applyChannelLoop apply s cs).1
        = cs.foldl (fun st c => (apply st c).getD st) s
      ∧ (applyChannelLoop apply s cs).2.1.length
          + (applyChannelLoop apply s cs).2.2.length = cs.length := by
  induction cs generalizing s with
  | nil => simp [applyChannelLoop]
  | cons c cs ih =>
    cases h : apply s c with
    | some s' =>
      have h1 := (ih s').1
      have h2 := (ih s').2
      refine ⟨?_, ?_⟩
      · simpa [applyChannelLoop, h] using h1
      · simp only [applyChannelLoop, h, List.length_cons]
        omega
    | none =>
      have h1 := (ih s).1
      have h2 := (ih s).2
      refine ⟨?_, ?_⟩
      · simpa [applyChannelLoop, h] using h1
      · simp only [applyChannelLoop, h, List.length_cons]
        omega

/-- C1: the one-vote-veto scan of a `continuous_check` item: if no candidate
timestamp fails, the verdict stays `true` with no failure time and every
timestamp is evaluated; at the first failing timestamp `t₀` the verdict flips
to `false`, the failure time records `t₀`, and no condition is evaluated at
any timestamp greater than `t₀`. -/
theorem runContinuous_one_vote_veto (store : ChannelStore) (item : EvaluationItem) :
    ((∀ t ∈ candidateTimes store item, failsAt store item t = false) →
        (runContinuous store item).verdict = true
          ∧ (runContinuous store item).failureTime = none
          ∧ (runContinuous store item).evaluated = candidateTimes store item)
      ∧ (∀ t₀ ∈ candidateTimes store item, failsAt store item t₀ = true →
          (∀ u ∈ candidateTimes store item, u < t₀ → failsAt store item u = false) →
          (runContinuous store item).verdict = false
            ∧ (runContinuous store item).failureTime = some t₀
            ∧ ∀ u ∈ (runContinuous store item).evaluated, u ≤ t₀) := by
  constructor
  · intro h
    have := scanVeto_all_pass (failsAt store item) (candidateTimes store item) h
    unfold runContinuous
    rw [this]
    exact ⟨rfl, rfl, rfl⟩
  · intro t₀ ht₀ hf hmin
    exact scanVeto_first_fail (failsAt store item) (candidateTimes store item)
      (candidateTimes_sorted store item) t₀ ht₀ hf hmin

/-- Witness for C1: the check "T stays ≤ 3" on `c1Store` first fails at t = 2;
the scan stops there and evaluates nothing later. -/
theorem runContinuous_one_vote_veto_witness :
    (runContinuous c1Store c1Item).verdict = false
      ∧ (runContinuous c1Store c1Item).failureTime = some 2
      ∧ ∀ u ∈ (runContinuous c1Store c1Item).evaluated, u ≤ 2 :=
  (runContinuous_one_vote_veto c1Store c1Item).2 2 (by decide) (by decide) (by decide)

/-- C8: a `functional_result` item yields `found t` exactly when `t` is the
earliest candidate timestamp at which the combined condition set becomes true
(first-trigger semantics, the before-data state counting as false), and the
distinct reportable state `notFound` exactly when the condition set never
becomes true — not an error and not a boolean verdict. -/
theorem runFunctional_first_trigger (store : ChannelStore) (item : EvaluationItem) :
    (∀ t : ℚ, runFunctional store item = .found t ↔
        (t ∈ candidateTimes store item ∧ combineAt store item t = some true
          ∧ ∀ u ∈ candidateTimes store item, u < t →
              combineAt store item u ≠ some true))
      ∧ (runFunctional store item = .notFound ↔
          ∀ t ∈ candidateTimes store item, combineAt store item t ≠ some true) := by
  have hiff : ∀ t : ℚ, firstTrigger store item = some t ↔
      (t ∈ candidateTimes store item ∧ combineAt store item t = some true
        ∧ ∀ u ∈ candidateTimes store item, u < t →
            combineAt store item u ≠ some true) := by
    intro t
    rw [firstTrigger, find?_sorted_eq_some_iff (candidateTimes_sorted store item)]
    constructor
    · rintro ⟨hmem, hp, hmin⟩
      exact ⟨hmem, by simpa using hp, fun u hu hul => by simpa using hmin u hu hul⟩
    · rintro ⟨hmem, hp, hmin⟩
      exact ⟨hmem, by simpa using hp, fun u hu hul => by simpa using hmin u hu hul⟩
  constructor
  · intro t
    rw [← hiff t]
    unfold runFunctional
    cases h : firstTrigger store item with
    | none => simp [h]
    | some t' => simp [h]
  · unfold runFunctional
    cases h : firstTrigger store item with
    | none =>
      simp only [h]
      rw [firstTrigger] at h
      rw [List.find?_eq_none] at h
      constructor
      · intro _ t ht
        simpa using h t ht
      · intro _
        trivial
    | some t' =>
      simp only [h]
      rw [firstTrigger] at h
      have hp := List.find?_some h
      have hmem := List.mem_of_find?_eq_some h
      constructor
      · intro hcontra
        exact absurd hcontra (by simp)
      · intro hall
        exact absurd (by simpa using hp) (hall t' hmem)

/-- Witness for C8: on `c8Store`, the "Ng exceeds 5" trigger first fires at
t = 2, and the unreachable trigger reports `notFound`. -/
theorem runFunctional_first_trigger_witness :
    runFunctional c8Store c8Item = .found 2
      ∧ runFunctional c8Store c8ItemNone = .notFound :=
  ⟨((runFunctional_first_trigger c8Store c8Item).1 2).mpr
      ⟨by decide, by decide, by decide⟩,
    (runFunctional_first_trigger c8Store c8ItemNone).2.mpr (by decide)⟩

/-- C2 counterexample: the Condition `c2Condition` references channel "Temp",
absent from `c2Store`; evaluation does not fail with a ChannelNotFound error
and the engine's scan is not aborted — the statistic evaluates to the default
0.0 (per the backend test README, note 4), the condition is decided from that
substitute value, and the full scan completes with a verdict. -/
theorem missing_channel_uses_default_counterexample :
    lookupChannel c2Store "Temp" = none
      ∧ statEval c2Store "Temp" .instantaneous 1 0 = some 0
      ∧ condEval c2Store c2Condition 1 = some true
      ∧ runContinuous c2Store c2Item = ⟨true, none, [0, 1]⟩
      ∧ missingChannels c2Store c2Item.conditions = ["Temp"] := by
  decide

/-- C2 amended: a Condition whose channel reference does not resolve in the
store does not fail and is not surfaced as a pre-scan error; every statistic
of the missing channel evaluates to the default value 0.0, evaluation proceeds
with that substitute, and the channel is reported in the warned missing set. -/
theorem missing_channel_default_zero (store : ChannelStore) (name : String)
    (h : lookupChannel store name = none) (kind : StatKind) (atTime d : ℚ) :
    statEval store name kind atTime d = some 0
      ∧ ∀ (conds : List Condition), (∃ c ∈ conds, c.channel = name) →
          name ∈ missingChannels store conds := by
  constructor
  · unfold statEval
    rw [h]
  · rintro conds ⟨c, hc, hname⟩
    unfold missingChannels
    rw [List.mem_dedup, List.mem_filter]
    refine ⟨List.mem_map.mpr ⟨c, hc, hname⟩, ?_⟩
    simp [h]

/-- Witness for C2 amended, at the missing channel "Temp" of `c2Store`. -/
theorem missing_channel_default_zero_witness :
    statEval c2Store "Temp" .average 3 2 = some 0
      ∧ "Temp" ∈ missingChannels c2Store [c2Condition] := by
  have h := missing_channel_default_zero c2Store "Temp" (by decide) .average 3 2
  exact ⟨h.1, h.2 [c2Condition] ⟨c2Condition, by decide, rfl⟩⟩

/-- C4: for a non-empty condition list in which every condition evaluates (no
missing data), all N conditions are materialized before combining (the list of
evaluated results has length N), AND-combining is `some true` exactly when
every condition is true (and flips to `some false` if any single one is
false), and OR-combining is `some false` exactly when every condition is false
(and flips to `some true` if any single one is true). -/
theorem combine_and_or (store : ChannelStore) (conds : List Condition) (t : ℚ)
    (_hne : conds ≠ [])
    (hall : ∀ c ∈ conds, (condEval store c t).isSome) :
    (evalAll store conds t).length = conds.length
      ∧ (combine store conds .and t = some true
          ↔ ∀ c ∈ conds, condEval store c t = some true)
      ∧ (combine store conds .or t = some false
          ↔ ∀ c ∈ conds, condEval store c t = some false)
      ∧ ((∃ c ∈ conds, condEval store c t = some false) →
          combine store conds .and t = some false)
      ∧ ((∃ c ∈ conds, condEval store c t = some true) →
          combine store conds .or t = some true) := by
  have hnone : ((evalAll store conds t).any fun r => r.isNone) = false := by
    rw [List.any_eq_false]
    intro r hr
    rw [evalAll, List.mem_map] at hr
    obtain ⟨c, hc, rfl⟩ := hr
    have hs := hall c hc
    cases hcc : condEval store c t with
    | none => rw [hcc] at hs; simp at hs
    | some b => simp
  have hand : combine store conds .and t
      = some ((evalAll store conds t).all fun r => r == some true) := by
    simp [combine, hnone]
  have hor : combine store conds .or t
      = some ((evalAll store conds t).any fun r => r == some true) := by
    simp [combine, hnone]
  have hmm : ∀ c ∈ conds, condEval store c t ∈ evalAll store conds t := by
    intro c hc
    rw [evalAll]
    exact List.mem_map_of_mem _ hc
  refine ⟨by simp [evalAll], ?_, ?_, ?_, ?_⟩
  · rw [hand]
    simp only [Option.some.injEq, List.all_eq_true]
    constructor
    · intro hx c hc
      have := hx (condEval store c t) (hmm c hc)
      simpa using this
    · intro hx r hr
      rw [evalAll, List.mem_map] at hr
      obtain ⟨c, hc, rfl⟩ := hr
      simp [hx c hc]
  · rw [hor]
    simp only [Option.some.injEq, List.any_eq_false]
    constructor
    · intro hx c hc
      have h1 := hx (condEval store c t) (hmm c hc)
      have hs := hall c hc
      cases hcc : condEval store c t with
      | none => rw [hcc] at hs; simp at hs
      | some b =>
        cases b with
        | true => rw [hcc] at h1; simp at h1
        | false => rfl
    · intro hx r hr
      rw [evalAll, List.mem_map] at hr
      obtain ⟨c, hc, rfl⟩ := hr
      simp [hx c hc]
  · rintro ⟨c, hc, hcf⟩
    rw [hand]
    simp only [Option.some.injEq, List.all_eq_false]
    exact ⟨condEval store c t, hmm c hc, by simp [hcf]⟩
  · rintro ⟨c, hc, hct⟩
    rw [hor]
    simp only [Option.some.injEq, List.any_eq_true]
    exact ⟨condEval store c t, hmm c hc, by simp [hct]⟩

/-- Witness for C4: on `c4Store` at t = 1, condition A is true and condition B
is false, so AND-combining flips to `some false` and OR-combining to `some true`. -/
theorem combine_and_or_witness :
    combine c4Store c4Conds .and 1 = some false
      ∧ combine c4Store c4Conds .or 1 = some true := by
  have h := combine_and_or c4Store c4Conds 1 (by decide) (by decide)
  exact ⟨h.2.2.2.1 ⟨c4CondB, by decide, by decide⟩,
    h.2.2.2.2 ⟨c4CondA, by decide, by decide⟩⟩

/-- C5: the window-based statistic kinds are computed over exactly the samples
with timestamp in the closed interval [atTime − d, atTime]: membership in the
window is that closed-interval condition, the statistic depends only on the
window's samples, and on the spec's example (channel Ng, average over 2 s at
t = 3, threshold 15000) the three samples in [1, 3] average to 15200 and the
condition returns true. -/
theorem statEval_window_semantics :
    (∀ (samples : List (ℚ × ℚ)) (atTime d : ℚ) (p : ℚ × ℚ),
        p ∈ windowSamples samples atTime d
          ↔ p ∈ samples ∧ atTime - d ≤ p.1 ∧ p.1 ≤ atTime)
      ∧ (∀ k : StatKind, k.isWindowBased = true →
          ∀ (samples : List (ℚ × ℚ)) (atTime d : ℚ),
            statOf k samples atTime d
              = statOf k (windowSamples samples atTime d) atTime d)
      ∧ statEval ngStore "Ng" .average 3 2 = some 15200
      ∧ condEval ngStore ngCondition 3 = some true := by
  have hw : windowSamples ngSamples 3 2 = [(1, 15200), (2, 15300), (3, 15100)] := by
    rw [windowSamples, show (3 : ℚ) - 2 = 1 from by norm_num]
    decide
  have hs3 : statEval ngStore "Ng" .average 3 2 = some 15200 := by
    show statOf .average ngSamples 3 2 = some 15200
    simp only [statOf, hw]
    norm_num [meanOf, listSum]
  have hs4 : condEval ngStore ngCondition 3 = some true := by
    show (statEval ngStore "Ng" .average 3 2).map
        (fun v => applyOp .gt v 15000) = some true
    rw [hs3]
    decide
  refine ⟨?_, ?_, hs3, hs4⟩
  · intro samples atTime d p
    simp [windowSamples, List.mem_filter, and_assoc]
  · intro k hk samples atTime d
    cases k <;> simp_all [statOf, StatKind.isWindowBased, windowSamples_idem]

/-- Witness for C5 at the spec's example data. -/
theorem statEval_window_semantics_witness :
    ((1 : ℚ), (15200 : ℚ)) ∈ windowSamples ngSamples 3 2
      ∧ statOf .average ngSamples 3 2
          = statOf .average (windowSamples ngSamples 3 2) 3 2 := by
  have h := statEval_window_semantics
  exact ⟨(h.1 ngSamples 3 2 (1, 15200)).mpr ⟨by decide, by norm_num, by norm_num⟩,
    h.2.1 .average (by decide) ngSamples 3 2⟩

/-- C6: re-submitting an already-applied structured update action is a no-op,
not an error — if applying the action once succeeded with session `s'`,
applying it again to `s'` succeeds and returns the identical session (same
state, same draft config, same history). -/
theorem applyAction_idempotent (s : ConfigSession) (a : DialogueAction)
    (s' : ConfigSession) (hu : a.isUpdate = true)
    (h : applyAction s a = .ok s') :
    applyAction s' a = .ok s' := by
  cases a with
  | selectChannel c =>
    by_cases hst : s.state = .displayChannels
    · by_cases hm : c ∈ s.config.displayChannels
      · simp only [applyAction, if_pos hst, if_pos hm] at h
        injection h with h'
        subst h'
        simp [applyAction, hst, hm]
      · simp only [applyAction, if_pos hst, if_neg hm] at h
        injection h with h'
        subst h'
        simp [applyAction, hst]
    · simp [applyAction, hst] at h
  | selectEvalItem id =>
    by_cases hst : s.state = .statusEvalSelectItems
    · by_cases hm : id ∈ s.config.evalItems
      · simp only [applyAction, if_pos hst, if_pos hm] at h
        injection h with h'
        subst h'
        simp [applyAction, hst, hm]
      · simp only [applyAction, if_pos hst, if_neg hm] at h
        injection h with h'
        subst h'
        simp [applyAction, hst]
    · simp [applyAction, hst] at h
  | setThreshold v =>
    by_cases hst : s.state = .parameterConfig
    · by_cases hm : s.config.threshold = some v
      · simp only [applyAction, if_pos hst, if_pos hm] at h
        injection h with h'
        subst h'
        simp [applyAction, hst, hm]
      · simp only [applyAction, if_pos hst, if_neg hm] at h
        injection h with h'
        subst h'
        simp [applyAction, hst]
    · simp [applyAction, hst] at h
  | finishChannels => simp [DialogueAction.isUpdate] at hu
  | chooseTrigger => simp [DialogueAction.isUpdate] at hu
  | confirm => simp [DialogueAction.isUpdate] at hu
  | prevStep => simp [DialogueAction.isUpdate] at hu

/-- Witness for C6: selecting channel "Ng" a second time returns the identical
session. -/
theorem applyAction_idempotent_witness :
    applyAction ⟨.displayChannels, ⟨["Ng"], [], none⟩, []⟩ (.selectChannel "Ng")
      = .ok ⟨.displayChannels, ⟨["Ng"], [], none⟩, []⟩ :=
  applyAction_idempotent ⟨.displayChannels, ⟨[], [], none⟩, []⟩
    (.selectChannel "Ng") ⟨.displayChannels, ⟨["Ng"], [], none⟩, []⟩
    (by decide) rfl

/-- C7: every accepted forward transition pushes the prior (state, config)
pair onto the history stack and "previous step" immediately afterwards pops it
and restores exactly the prior state and config; cancel clears the session
entirely and is irreversible — the status lookup afterwards finds no session
(the backend's 404) and no action on the cancelled id can be applied. -/
theorem forward_push_prev_pop_cancel :
    (∀ (s : ConfigSession) (a : DialogueAction) (s' : ConfigSession),
        a.isForward = true → applyAction s a = .ok s' →
          s'.history = (s.state, s.config) :: s.history
            ∧ applyAction s' .prevStep = .ok ⟨s.state, s.config, s.history⟩)
      ∧ (∀ (store : SessionStore) (id : String),
          checkConfigStatus (cancelConfig store id) id = none)
      ∧ (∀ (store : SessionStore) (id : String) (a : DialogueAction),
          applySessionAction (cancelConfig store id) id a
            = .error .sessionNotFound) := by
  have hcancel : ∀ (store : SessionStore) (id : String),
      checkConfigStatus (cancelConfig store id) id = none := by
    intro store id
    rw [checkConfigStatus, cancelConfig]
    have : (store.sessions.filter (fun p => p.1 != id)).find?
        (fun p => p.1 == id) = none := by
      rw [List.find?_eq_none]
      intro p hp
      have := (List.mem_filter.mp hp).2
      simp_all
    rw [this]
    rfl
  refine ⟨?_, hcancel, ?_⟩
  · intro s a s' hfwd h
    cases a with
    | finishChannels =>
      by_cases hst : s.state = .displayChannels
      · simp only [applyAction, if_pos hst] at h
        injection h with h'
        subst h'
        exact ⟨rfl, rfl⟩
      · simp [applyAction, hst] at h
    | chooseTrigger =>
      by_cases hst : s.state = .triggerCombo
      · simp only [applyAction, if_pos hst] at h
        injection h with h'
        subst h'
        exact ⟨rfl, rfl⟩
      · simp [applyAction, hst] at h
    | confirm =>
      by_cases hst : s.state = .parameterConfig
      · simp only [applyAction, if_pos hst] at h
        injection h with h'
        subst h'
        exact ⟨rfl, rfl⟩
      · simp [applyAction, hst] at h
    | selectChannel c => simp [DialogueAction.isForward] at hfwd
    | selectEvalItem id => simp [DialogueAction.isForward] at hfwd
    | setThreshold v => simp [DialogueAction.isForward] at hfwd
    | prevStep => simp [DialogueAction.isForward] at hfwd
  · intro store id a
    rw [applySessionAction, hcancel store id]

/-- Witness for C7: the forward transition out of channel selection pushes the
prior pair, "previous step" restores it, and after cancelling session "s1" the
status lookup returns none. -/
theorem forward_push_prev_pop_cancel_witness :
    applyAction ⟨.triggerCombo, demoCfg, [(.displayChannels, demoCfg)]⟩ .prevStep
        = .ok ⟨.displayChannels, demoCfg, []⟩
      ∧ checkConfigStatus (cancelConfig demoSessions "s1") "s1" = none := by
  have h1 := forward_push_prev_pop_cancel.1 ⟨.displayChannels, demoCfg, []⟩
    .finishChannels ⟨.triggerCombo, demoCfg, [(.displayChannels, demoCfg)]⟩
    (by decide) rfl
  exact ⟨h1.2, forward_push_prev_pop_cancel.2.1 demoSessions "s1"⟩

end DRIA
